import Mathlib

/-!
Shallow embedding of the Bygglovskartan scraper
(`scripts/bygglov_scraper.py`, with the structurally identical grid loop of
`scripts/scrape_stockholm_full.py`).

Modelling conventions:
* JSON scalars carry rational numbers (`ℚ`) in place of Python floats/ints;
  all arithmetic the claims touch (vertex averaging, grid stepping) is exact.
* Python runtime exceptions raised by the scraper's own code (AttributeError
  from `.get` on a non-dict, IndexError/TypeError from subscripting and
  `sum`, TypeError from hashing an unhashable set element) are modelled with
  `Except PyErr`.
* The `requests` layer is abstracted by `HttpResult`: a transport-level
  exception, or a response with a final status code and an optional decoded
  JSON body (`none` = body that raises `json.JSONDecodeError`).
  `Response.raise_for_status` raises `requests.HTTPError` exactly for status
  codes 400–599; both exception classes are caught by the scraper.
* Wall-clock time for the rate limiter is an abstract rational clock;
  `time.sleep(d)` advances it by exactly `d`, and the work done between two
  calls advances it by an arbitrary given amount.
-/

/-- JSON values as produced by `response.json()`, with `ℚ` for numbers. -/
inductive Json where
  | null : Json
  | bool (b : Bool) : Json
  | num (q : ℚ) : Json
  | str (s : String) : Json
  | arr (xs : List Json) : Json
  | obj (kvs : List (String × Json)) : Json
deriving Repr

/-- Python runtime exceptions that the scraper code itself can raise
(as opposed to the caught `requests` / `json` exceptions). -/
inductive PyErr where
  | attributeError : PyErr
  | indexError : PyErr
  | keyError : PyErr
  | typeError : PyErr
deriving DecidableEq, Repr

mutual

/-- Python `==` on JSON-derived values: numbers compare by value and `bool`
is a subtype of `int` (`True == 1`, `False == 0`); lists and dicts compare
elementwise. -/
def pyEq : Json → Json → Bool
  | .null, .null => true
  | .bool a, .bool b => a == b
  | .bool a, .num m => (if a then (1 : ℚ) else 0) == m
  | .num n, .bool b => n == (if b then (1 : ℚ) else 0)
  | .num n, .num m => n == m
  | .str a, .str b => a == b
  | .arr xs, .arr ys => pyEqList xs ys
  | .obj a, .obj b => pyEqObj a b
  | _, _ => false

/-- Elementwise Python `==` on lists. -/
def pyEqList : List Json → List Json → Bool
  | [], [] => true
  | x :: xs, y :: ys => pyEq x y && pyEqList xs ys
  | _, _ => false

/-- Entrywise Python `==` on JSON objects (string keys). -/
def pyEqObj : List (String × Json) → List (String × Json) → Bool
  | [], [] => true
  | (k1, v1) :: xs, (k2, v2) :: ys => k1 == k2 && pyEq v1 v2 && pyEqObj xs ys
  | _, _ => false

end

/-- Python truthiness of a JSON-derived value. -/
def truthy : Json → Bool
  | .null => false
  | .bool b => b
  | .num n => n != 0
  | .str s => s != ""
  | .arr xs => !xs.isEmpty
  | .obj kvs => !kvs.isEmpty

/-- Python `v.get(key, default)`: defined on dicts, `AttributeError` on any
other receiver (including `None`). -/
def pyGet (v : Json) (key : String) (default : Json) : Except PyErr Json :=
  match v with
  | .obj kvs =>
    match kvs.lookup key with
    | some w => .ok w
    | none => .ok default
  | _ => .error .attributeError

/-- Python `len(v)`: defined on lists, strings and dicts, `TypeError`
otherwise. -/
def pyLen : Json → Except PyErr Nat
  | .arr xs => .ok xs.length
  | .str s => .ok s.length
  | .obj kvs => .ok kvs.length
  | _ => .error .typeError

/-- Python `v[i]` for a non-negative integer literal index: list indexing
with `IndexError` out of range, string indexing yielding a one-character
string, `KeyError` on a JSON object (its keys are strings, so an integer
key never matches), `TypeError` on scalars. -/
def pyIndex (v : Json) (i : Nat) : Except PyErr Json :=
  match v with
  | .arr xs =>
    match xs[i]? with
    | some x => .ok x
    | none => .error .indexError
  | .str s =>
    match s.data[i]? with
    | some c => .ok (.str (String.singleton c))
    | none => .error .indexError
  | .obj _ => .error .keyError
  | _ => .error .typeError

/-- Numeric value of a Python summand: ints/floats by value, `bool` as 0/1,
`TypeError` for anything else (`0 + v` fails). -/
def pyNumVal : Json → Except PyErr ℚ
  | .num q => .ok q
  | .bool b => .ok (if b then 1 else 0)
  | _ => .error .typeError

/-- Running left-to-right accumulation of `sum(v[i] for v in vs)`. -/
def sumComponent (i : Nat) (acc : ℚ) : List Json → Except PyErr ℚ
  | [] => .ok acc
  | v :: vs => do
    let x ← pyIndex v i
    let q ← pyNumVal x
    sumComponent i (acc + q) vs

/-- Python `sum(v[i] for v in vertices)`: iterates a list; any other truthy
value ends in a `TypeError` (non-iterables fail to iterate, and iterating a
string or dict yields strings, which `0 + ·` rejects). -/
def pySumIdx (i : Nat) (vertices : Json) : Except PyErr ℚ :=
  match vertices with
  | .arr vs => sumComponent i 0 vs
  | _ => .error .typeError

/-- The module-level `PERMIT_TYPES` table of `bygglov_scraper.py`. -/
def PERMIT_TYPES : List (ℚ × String) :=
  [(0, "Bygglov"), (1, "Rivningslov"), (2, "Marklov"), (3, "Förhandsbesked")]

/-- Whether a JSON-derived value is hashable in Python (lists and dicts are
not). -/
def hashable : Json → Bool
  | .arr _ => false
  | .obj _ => false
  | _ => true

/-- Label found for a hashable type code in `PERMIT_TYPES`, with the
`'Unknown'` default of `PERMIT_TYPES.get(typ_num, 'Unknown')`. -/
def findLabel (typ : Json) : String :=
  match PERMIT_TYPES.find? (fun kv => pyEq typ (.num kv.1)) with
  | some kv => kv.2
  | none => "Unknown"

/-- Python `PERMIT_TYPES.get(typ_num, 'Unknown')`: hashes the key first
(`TypeError` on unhashable keys), then looks it up by `==`. -/
def permitTypesGet (typ : Json) : Except PyErr Json :=
  if hashable typ then .ok (.str (findLabel typ)) else .error .typeError

/-- The flat row built by `extract_permit_data`; field values are the Python
values stored in the returned dict (`Json.null` models Python `None`). -/
structure NormalizedRecord where
  permit_id : Json
  property_name : Json
  municipal_case_id : Json
  publication_date : Json
  municipality : Json
  permit_type_num : Json
  permit_type : Json
  longitude : Json
  latitude : Json
deriving Repr

/-- Geometry handling of `extract_permit_data` (the `if/elif/else` computing
`lon, lat` from `geometry` and `coords`). -/
def geomLonLat (geometry coords : Json) : Except PyErr (Json × Json) := do
  let gtype ← pyGet geometry "type" .null
  if pyEq gtype (.str "Polygon") && truthy coords then do
    let vertices ← if truthy coords then pyIndex coords 0 else pure (.arr [])
    if truthy vertices then do
      let s0 ← pySumIdx 0 vertices
      let s1 ← pySumIdx 1 vertices
      let n ← pyLen vertices
      pure (.num (s0 / (n : ℚ)), .num (s1 / (n : ℚ)))
    else
      pure (.null, .null)
  else if pyEq gtype (.str "Point") then do
    let n ← pyLen coords
    if 2 ≤ n then do
      let x ← pyIndex coords 0
      let y ← pyIndex coords 1
      pure (x, y)
    else
      pure (.null, .null)
  else
    pure (.null, .null)

/-- `BygglovScraper.extract_permit_data` (static): normalizes one raw permit
Feature into the flat output row. -/
def extract_permit_data (permit : Json) : Except PyErr NormalizedRecord := do
  let properties ← pyGet permit "properties" (.obj [])
  let geometry ← pyGet permit "geometry" (.obj [])
  let coords ← pyGet geometry "coordinates" (.arr [])
  let lonlat ← geomLonLat geometry coords
  let typ_num ← pyGet properties "typ_num" (.num (-1))
  let pid ← pyGet properties "id" (.str "")
  let fastighet ← pyGet properties "fastighet" (.str "")
  let kun_id ← pyGet properties "kun_id" (.str "")
  let pubdate ← pyGet properties "pubdate" (.str "")
  let subtext ← pyGet properties "subtext" (.str "")
  let label ← permitTypesGet typ_num
  pure { permit_id := pid
         property_name := fastighet
         municipal_case_id := kun_id
         publication_date := pubdate
         municipality := subtext
         permit_type_num := typ_num
         permit_type := label
         longitude := lonlat.1
         latitude := lonlat.2 }

/-- Outcome of `save_to_csv`: early return with no file, a written file with
its rows, or an uncaught Python exception. -/
inductive WriteOutcome where
  | noFile : WriteOutcome
  | wrote (rows : List NormalizedRecord) : WriteOutcome
  | raised (e : PyErr) : WriteOutcome
deriving Repr

/-- The dedup loop of `save_to_csv`: set membership hashes the id first
(`TypeError` on an unhashable id), then compares by `==`; `acc` mirrors
`unique_permits` (kept in reverse, restored at the end). -/
def dedupLoop (seen : List Json) (acc : List NormalizedRecord) :
    List NormalizedRecord → Except PyErr (List NormalizedRecord)
  | [] => .ok acc.reverse
  | p :: ps =>
    if hashable p.permit_id = false then .error .typeError
    else if seen.any (fun s => pyEq s p.permit_id) then dedupLoop seen acc ps
    else dedupLoop (p.permit_id :: seen) (p :: acc) ps

/-- `BygglovScraper.save_to_csv`: on an empty list it logs a warning and
returns (no file is created and nothing is raised); otherwise it cleans
every permit, removes duplicate `permit_id`s keeping the first occurrence,
and writes the surviving rows. -/
def save_to_csv (permits : List Json) : WriteOutcome :=
  if permits.isEmpty then .noFile
  else
    match permits.mapM extract_permit_data with
    | .error e => .raised e
    | .ok cleaned =>
      match dedupLoop [] [] cleaned with
      | .error e => .raised e
      | .ok unique => .wrote unique

/-- Abstract outcome of one `session.get` call: a transport-level
`requests.RequestException`, or a response with its final status code and
an optional decoded JSON body (`none` models a body on which
`response.json()` raises `json.JSONDecodeError`). -/
inductive HttpResult where
  | transportError : HttpResult
  | status (code : Nat) (body : Option Json) : HttpResult

/-- `Response.raise_for_status` raises `requests.HTTPError` exactly for
status codes 400–599 (4xx client errors and 5xx server errors). -/
def raiseForStatusFails (code : Nat) : Bool :=
  decide (400 ≤ code ∧ code < 600)

/-- `BygglovScraper.get_locations`, as a function of the HTTP outcome of its
one request: `RequestException` (transport or `raise_for_status`) and
`JSONDecodeError` are caught and give `[]`; otherwise the response is read
as `data.get('data', {}).get('features', [])` (an `AttributeError` here is
not caught). -/
def get_locations (resp : HttpResult) : Except PyErr Json :=
  match resp with
  | .transportError => .ok (.arr [])
  | .status code body =>
    if raiseForStatusFails code then .ok (.arr [])
    else
      match body with
      | none => .ok (.arr [])
      | some data => do
        let _count ← pyGet data "count" (.num 0)
        let d ← pyGet data "data" (.obj [])
        let features ← pyGet d "features" (.arr [])
        pure features

/-- `BygglovScraper.get_permit_details`, as a function of the HTTP outcome:
both exception classes are caught and give `{}`; on success the decoded body
is returned as-is. -/
def get_permit_details (resp : HttpResult) : Json :=
  match resp with
  | .transportError => .obj []
  | .status code body =>
    if raiseForStatusFails code then .obj []
    else
      match body with
      | none => .obj []
      | some j => j

/-- The detail-fetch loop of `scrape_bounding_box`: for each location
marker, read `location.get('properties', {}).get('id')`, skip falsy ids
(`if not permit_id: continue`), fetch details through the oracle `fetch`
(one `get_permit_details` round trip per id), and keep truthy results. -/
def detailLoop (fetch : Json → Json) : List Json → Except PyErr (List Json)
  | [] => .ok []
  | loc :: rest => do
    let props ← pyGet loc "properties" (.obj [])
    let pid ← pyGet props "id" .null
    if truthy pid = false then detailLoop fetch rest
    else do
      let details := fetch pid
      let tail ← detailLoop fetch rest
      pure (if truthy details then details :: tail else tail)

/-- `BygglovScraper.scrape_bounding_box`, given the already-fetched
`get_locations` result and a detail oracle: returns `[]` when the location
list is falsy, the raw list when `fetch_details` is false, and otherwise
iterates the markers (iterating a truthy non-list meets an uncaught
`AttributeError` on `.get`, or a `TypeError` for non-iterables). -/
def scrape_bounding_box (fetch : Json → Json) (locations : Json)
    (fetch_details : Bool) : Except PyErr Json :=
  if truthy locations = false then .ok (.arr [])
  else if fetch_details = false then .ok locations
  else
    match locations with
    | .arr locs => do
      let detailed ← detailLoop fetch locs
      pure (.arr detailed)
    | .str _ => .error .attributeError
    | .obj _ => .error .attributeError
    | _ => .error .typeError

/-- One dimension of the grid loop shared by `scrape_sweden` and
`scrape_stockholm_complete`: `while lo < hi:` emit the cell
`(lo, min(lo + step, hi))` and advance `lo += step`.  The Python loop does
not terminate when `step ≤ 0`; the guard makes this definition return `[]`
there, and every claim about the grid assumes a positive step. -/
def gridCells1D (lo hi step : ℚ) : List (ℚ × ℚ) :=
  if h : 0 < step ∧ lo < hi then
    (lo, min (lo + step) hi) :: gridCells1D (lo + step) hi step
  else []
termination_by (⌈(hi - lo) / step⌉).toNat
decreasing_by
  have hstep : 0 < step := h.1
  have hlt : lo < hi := h.2
  have hrw : (hi - (lo + step)) / step = (hi - lo) / step - 1 := by
    field_simp
    ring
  have hceil : ⌈(hi - (lo + step)) / step⌉ = ⌈(hi - lo) / step⌉ - 1 := by
    rw [hrw, Int.ceil_sub_one]
  have hpos : 0 < ⌈(hi - lo) / step⌉ := by
    rw [Int.ceil_pos]
    exact div_pos (by linarith) hstep
  omega

/-- The row-major grid of the nested `while` loops: for each latitude band,
sweep all longitude cells; each cell is
`(lat, min(lat + step, lat_max), lon, min(lon + step, lon_max))`. -/
def gridCells (lat_min lat_max lon_min lon_max step : ℚ) :
    List (ℚ × ℚ × ℚ × ℚ) :=
  (gridCells1D lat_min lat_max step).flatMap fun la =>
    (gridCells1D lon_min lon_max step).map fun lo =>
      (la.1, la.2, lo.1, lo.2)

/-- The hardcoded Sweden bounding box of `scrape_sweden`
(`lat 55.0–69.0`, `lon 10.5–24.5`). -/
def sweden_bbox : ℚ × ℚ × ℚ × ℚ := (55, 69, 21 / 2, 49 / 2)

/-- The hardcoded Stockholm bounding box of `scrape_stockholm_complete`
(`lat 59.2–59.5`, `lon 17.8–18.2`). -/
def stockholm_bbox : ℚ × ℚ × ℚ × ℚ := (296 / 5, 119 / 2, 89 / 5, 91 / 5)

/-- The grid traversed by `scrape_sweden(grid_size)`. -/
def scrape_sweden_grid (grid_size : ℚ) : List (ℚ × ℚ × ℚ × ℚ) :=
  gridCells sweden_bbox.1 sweden_bbox.2.1 sweden_bbox.2.2.1 sweden_bbox.2.2.2
    grid_size

/-- Rate-limiter state: the configured interval and the
`last_request_time` field (initialized to `0` in `__init__`). -/
structure Limiter where
  rate_limit : ℚ
  last_request_time : ℚ

/-- `BygglovScraper._rate_limit_wait` on the abstract clock: reading the
clock at `now`, sleep `rate_limit - elapsed` when `elapsed < rate_limit`,
then store the post-sleep clock in `last_request_time`.  Returns the time
at which the caller proceeds (the start of the request) and the new
state. -/
def rate_limit_wait (now : ℚ) (l : Limiter) : ℚ × Limiter :=
  let elapsed := now - l.last_request_time
  let start := if elapsed < l.rate_limit then now + (l.rate_limit - elapsed)
               else now
  (start, { l with last_request_time := start })

/-- Start times of a sequence of rate-limited calls: each entry of `deltas`
is the (clock-advancing) work done after the corresponding call starts,
before the next call reaches the limiter. -/
def callStartsAux (l : Limiter) (now : ℚ) : List ℚ → List ℚ
  | [] => []
  | d :: ds =>
    let s := rate_limit_wait now l
    s.1 :: callStartsAux s.2 (s.1 + d) ds

/-- Start times of `deltas.length` calls through a fresh
`BygglovScraper(rate_limit_seconds = rl)` whose process observes wall-clock
time `t0` at the first call. -/
def callStarts (rl t0 : ℚ) (deltas : List ℚ) : List ℚ :=
  callStartsAux { rate_limit := rl, last_request_time := 0 } t0 deltas

/-- Pure first-seen-wins deduplication; `dedupLoop` computes exactly this
whenever every id is hashable (proved in `dedupLoop_eq_dedupFirst`). -/
def dedupFirst (seen : List Json) : List NormalizedRecord → List NormalizedRecord
  | [] => []
  | p :: ps =>
    if seen.any (fun s => pyEq s p.permit_id) then dedupFirst seen ps
    else p :: dedupFirst (p.permit_id :: seen) ps

/-- The row `extract_permit_data` produces when the geometry carries no
recognized type and every property is read through its default. -/
def defaultRowFor (kvs : List (String × Json)) : NormalizedRecord where
  permit_id := (kvs.lookup "id").getD (.str "")
  property_name := (kvs.lookup "fastighet").getD (.str "")
  municipal_case_id := (kvs.lookup "kun_id").getD (.str "")
  publication_date := (kvs.lookup "pubdate").getD (.str "")
  municipality := (kvs.lookup "subtext").getD (.str "")
  permit_type_num := (kvs.lookup "typ_num").getD (.num (-1))
  permit_type := .str (findLabel ((kvs.lookup "typ_num").getD (.num (-1))))
  longitude := .null
  latitude := .null

/-- A raw record whose geometry is a Polygon whose first ring holds a single
vertex with no coordinates (`coordinates = [[[]]]`). -/
def badPolygonPermit : Json :=
  .obj [("geometry", .obj [("type", .str "Polygon"),
    ("coordinates", .arr [.arr [.arr []]])])]

/-- The square Polygon record of the spec example, vertices
`[(0,0), (2,0), (2,2), (0,2)]`. -/
def squarePolygonPermit : Json :=
  .obj [("geometry", .obj [("type", .str "Polygon"),
    ("coordinates", .arr [.arr [.arr [.num 0, .num 0], .arr [.num 2, .num 0],
      .arr [.num 2, .num 2], .arr [.num 0, .num 2]]])])]

/-!  Helper lemmas. -/

/-- Successful bind in the `Except` monad. -/
theorem ok_bind {ε α β : Type} (x : α) (f : α → Except ε β) :
    (Except.ok x >>= f) = f x := rfl

/-- Failing bind in the `Except` monad. -/
theorem error_bind {ε α β : Type} (e : ε) (f : α → Except ε β) :
    ((Except.error e : Except ε α) >>= f) = Except.error e := rfl

/-- Evaluation of `pyGet` on a dict. -/
theorem pyGet_obj (kvs : List (String × Json)) (k : String) (d : Json) :
    pyGet (.obj kvs) k d = .ok ((kvs.lookup k).getD d) := by
  simp only [pyGet]
  cases kvs.lookup k <;> simp

/-- Python equality is symmetric (stated for hashable left arguments, the
only ones the dedup set ever stores). -/
theorem pyEq_symm_hashable {a b : Json} (ha : hashable a = true) :
    pyEq a b = pyEq b a := by
  cases a <;> cases b <;> simp_all [pyEq, hashable] <;> exact eq_comm

/-- Python equality is transitive out of a hashable value. -/
theorem pyEq_trans_hashable {a b c : Json} (ha : hashable a = true)
    (h1 : pyEq a b = true) (h2 : pyEq b c = true) : pyEq a c = true := by
  cases a <;> cases b <;> cases c <;>
    first
      | (simp_all [pyEq, hashable, beq_iff_eq]; done)
      | (rename_i x _ z
         cases x <;> cases z <;>
           simp_all [pyEq, hashable, beq_iff_eq])

/-- The dedup loop of `save_to_csv` computes `dedupFirst` whenever every
incoming id is hashable. -/
theorem dedupLoop_eq_dedupFirst :
    ∀ (rows : List NormalizedRecord) (seen : List Json)
      (acc : List NormalizedRecord),
      (∀ r ∈ rows, hashable r.permit_id = true) →
      dedupLoop seen acc rows = .ok (acc.reverse ++ dedupFirst seen rows)
  | [], _, _, _ => by simp [dedupLoop, dedupFirst]
  | p :: ps, seen, acc, h => by
    have hp : hashable p.permit_id = true := h p (List.mem_cons_self p ps)
    have hps : ∀ r ∈ ps, hashable r.permit_id = true :=
      fun r hr => h r (List.mem_cons_of_mem p hr)
    simp only [dedupLoop, dedupFirst, hp]
    by_cases hseen : seen.any (fun s => pyEq s p.permit_id)
    · simp [hseen, dedupLoop_eq_dedupFirst ps seen acc hps]
    · simp only [hseen, Bool.false_eq_true, if_false, if_neg]
      rw [dedupLoop_eq_dedupFirst ps (p.permit_id :: seen) (p :: acc) hps]
      simp

/-- Rows surviving `dedupFirst` have ids fresh with respect to `seen`. -/
theorem dedupFirst_fresh :
    ∀ (rows : List NormalizedRecord) (seen : List Json),
      ∀ r ∈ dedupFirst seen rows, ∀ s ∈ seen, pyEq s r.permit_id = false
  | [], _ => by simp [dedupFirst]
  | p :: ps, seen => by
    simp only [dedupFirst]
    by_cases hseen : seen.any (fun s => pyEq s p.permit_id)
    · simpa [hseen] using dedupFirst_fresh ps seen
    · intro r hr s hs
      simp only [hseen, Bool.false_eq_true, if_false, List.mem_cons] at hr
      rcases hr with rfl | hr
      · have hany : seen.any (fun s => pyEq s r.permit_id) = false := by
          simpa using hseen
        simpa using List.any_eq_false.mp hany s hs
      · exact dedupFirst_fresh ps (p.permit_id :: seen) r hr s
          (List.mem_cons_of_mem _ hs)

/-- The rows surviving `dedupFirst` have pairwise Python-distinct ids. -/
theorem dedupFirst_pairwise :
    ∀ (rows : List NormalizedRecord) (seen : List Json),
      (dedupFirst seen rows).Pairwise
        (fun a b => pyEq a.permit_id b.permit_id = false)
  | [], _ => by simp [dedupFirst]
  | p :: ps, seen => by
    simp only [dedupFirst]
    by_cases hseen : seen.any (fun s => pyEq s p.permit_id)
    · simpa [hseen] using dedupFirst_pairwise ps seen
    · simp only [hseen, Bool.false_eq_true, if_false]
      refine List.Pairwise.cons ?_ (dedupFirst_pairwise ps (p.permit_id :: seen))
      intro b hb
      exact dedupFirst_fresh ps (p.permit_id :: seen) b hb p.permit_id
        (List.mem_cons_self _ _)

/-- First-seen-wins characterization: filtering the dedup output by any
Python-equality class leaves exactly the first input row of that class. -/
theorem dedupFirst_filter (id : Json) :
    ∀ (rows : List NormalizedRecord) (seen : List Json),
      (∀ s ∈ seen, hashable s = true) →
      (∀ r ∈ rows, hashable r.permit_id = true) →
      (dedupFirst seen rows).filter (fun r => pyEq r.permit_id id) =
        if seen.any (fun s => pyEq s id) then []
        else (rows.find? (fun r => pyEq r.permit_id id)).toList
  | [], seen, _, _ => by simp [dedupFirst]
  | p :: ps, seen, hseenh, hrows => by
    have hp : hashable p.permit_id = true := hrows p (List.mem_cons_self p ps)
    have hps : ∀ r ∈ ps, hashable r.permit_id = true :=
      fun r hr => hrows r (List.mem_cons_of_mem p hr)
    simp only [dedupFirst]
    by_cases hseen : seen.any (fun s => pyEq s p.permit_id)
    · -- p is skipped
      rw [if_pos hseen, dedupFirst_filter id ps seen hseenh hps]
      by_cases hid : seen.any (fun s => pyEq s id)
      · simp [hid]
      · -- p cannot match id either, else a seen element would via transitivity
        have hpid : pyEq p.permit_id id = false := by
          by_contra hne
          have hne' : pyEq p.permit_id id = true := by
            revert hne
            cases pyEq p.permit_id id <;> simp
          rcases List.any_eq_true.mp hseen with ⟨s, hs, hspid⟩
          have : pyEq s id = true :=
            pyEq_trans_hashable (hseenh s hs) hspid hne'
          exact hid (List.any_eq_true.mpr ⟨s, hs, this⟩)
        simp [hid, List.find?, hpid]
    · -- p is kept
      rw [if_neg hseen]
      have hrec := dedupFirst_filter id ps (p.permit_id :: seen)
        (by
          intro s hs
          rcases List.mem_cons.mp hs with rfl | hs
          · exact hp
          · exact hseenh s hs)
        hps
      by_cases hpid : pyEq p.permit_id id = true
      · -- the head matches: everything later is filtered out
        have hseen' : (p.permit_id :: seen).any (fun s => pyEq s id) = true :=
          List.any_eq_true.mpr ⟨p.permit_id, List.mem_cons_self _ _, hpid⟩
        have hid : seen.any (fun s => pyEq s id) = false := by
          by_contra hne
          have hne' : seen.any (fun s => pyEq s id) = true := by
            revert hne
            cases seen.any (fun s => pyEq s id) <;> simp
          rcases List.any_eq_true.mp hne' with ⟨s, hs, hsid⟩
          have hidp : pyEq id p.permit_id = true := by
            rw [← pyEq_symm_hashable hp]; exact hpid
          have : pyEq s p.permit_id = true :=
            pyEq_trans_hashable (hseenh s hs) hsid hidp
          exact hseen (List.any_eq_true.mpr ⟨s, hs, this⟩)
        rw [List.filter_cons, hrec, if_pos hseen']
        simp [hid, hpid, List.find?_cons]
      · -- the head does not match: recurse
        have hpid' : pyEq p.permit_id id = false := by
          revert hpid
          cases pyEq p.permit_id id <;> simp
        have hseen' : (p.permit_id :: seen).any (fun s => pyEq s id) =
            seen.any (fun s => pyEq s id) := by
          simp [List.any_cons, hpid']
        rw [List.filter_cons, hrec, hseen']
        by_cases hid : seen.any (fun s => pyEq s id)
        · simp [hid, hpid']
        · simp [hid, hpid', List.find?_cons]

/-- Inversion of a successful `extract_permit_data` run into its sequential
steps and the produced field values. -/
theorem extract_fields {permit : Json} {row : NormalizedRecord}
    (h : extract_permit_data permit = .ok row) :
    ∃ props geo coords lonlat,
      pyGet permit "properties" (.obj []) = .ok props ∧
      pyGet permit "geometry" (.obj []) = .ok geo ∧
      pyGet geo "coordinates" (.arr []) = .ok coords ∧
      geomLonLat geo coords = .ok lonlat ∧
      pyGet props "typ_num" (.num (-1)) = .ok row.permit_type_num ∧
      pyGet props "id" (.str "") = .ok row.permit_id ∧
      permitTypesGet row.permit_type_num = .ok row.permit_type ∧
      row.longitude = lonlat.1 ∧ row.latitude = lonlat.2 := by
  unfold extract_permit_data at h
  cases hp : pyGet permit "properties" (.obj []) with
  | error e => rw [hp, error_bind] at h; exact absurd h (by simp)
  | ok props =>
  rw [hp, ok_bind] at h
  cases hg : pyGet permit "geometry" (.obj []) with
  | error e => rw [hg, error_bind] at h; exact absurd h (by simp)
  | ok geo =>
  rw [hg, ok_bind] at h
  cases hc : pyGet geo "coordinates" (.arr []) with
  | error e => rw [hc, error_bind] at h; exact absurd h (by simp)
  | ok coords =>
  rw [hc, ok_bind] at h
  cases hl : geomLonLat geo coords with
  | error e => rw [hl, error_bind] at h; exact absurd h (by simp)
  | ok lonlat =>
  rw [hl, ok_bind] at h
  cases ht : pyGet props "typ_num" (.num (-1)) with
  | error e => rw [ht, error_bind] at h; exact absurd h (by simp)
  | ok typ_num =>
  rw [ht, ok_bind] at h
  cases hid : pyGet props "id" (.str "") with
  | error e => rw [hid, error_bind] at h; exact absurd h (by simp)
  | ok pid =>
  rw [hid, ok_bind] at h
  cases hfa : pyGet props "fastighet" (.str "") with
  | error e => rw [hfa, error_bind] at h; exact absurd h (by simp)
  | ok fast =>
  rw [hfa, ok_bind] at h
  cases hku : pyGet props "kun_id" (.str "") with
  | error e => rw [hku, error_bind] at h; exact absurd h (by simp)
  | ok kun =>
  rw [hku, ok_bind] at h
  cases hpu : pyGet props "pubdate" (.str "") with
  | error e => rw [hpu, error_bind] at h; exact absurd h (by simp)
  | ok pub =>
  rw [hpu, ok_bind] at h
  cases hsu : pyGet props "subtext" (.str "") with
  | error e => rw [hsu, error_bind] at h; exact absurd h (by simp)
  | ok sub =>
  rw [hsu, ok_bind] at h
  cases hla : permitTypesGet typ_num with
  | error e => rw [hla, error_bind] at h; exact absurd h (by simp)
  | ok label =>
  rw [hla, ok_bind] at h
  injection h with h2
  subst h2
  exact ⟨props, geo, coords, lonlat, rfl, rfl, hc, hl, ht, hid, hla, rfl, rfl⟩

/-- Successful run of `save_to_csv` on a nonempty, cleanly extractable list
with hashable ids: the written rows are the first-seen-wins dedup of the
extracted rows. -/
theorem save_to_csv_wrote {permits : List Json}
    {cleaned : List NormalizedRecord} (hne : permits ≠ [])
    (hclean : permits.mapM extract_permit_data = .ok cleaned)
    (hhash' : ∀ r ∈ cleaned, hashable r.permit_id = true) :
    save_to_csv permits = .wrote (dedupFirst [] cleaned) := by
  unfold save_to_csv
  have hemp : permits.isEmpty = false := by
    cases permits with
    | nil => exact absurd rfl hne
    | cons a l => rfl
  rw [hemp, hclean]
  simp [dedupLoop_eq_dedupFirst cleaned [] [] hhash']

/-!  Claim theorems. -/

/-- C1: for every input sequence of records (nonempty, cleanly extractable,
with hashable ids), `save_to_csv` deduplicates by `permit_id`, keeping
exactly the first occurrence of each `permit_id` in input order and
discarding every subsequent record with the same id: for any id value, the
rows written with that id are exactly the first extracted row carrying it. -/
theorem save_to_csv_dedups_first_seen (permits : List Json)
    (cleaned : List NormalizedRecord)
    (hne : permits ≠ [])
    (hclean : permits.mapM extract_permit_data = .ok cleaned)
    (hhash : cleaned.all (fun r => hashable r.permit_id) = true) :
    ∃ unique, save_to_csv permits = .wrote unique ∧
      ∀ id : Json, unique.filter (fun r => pyEq r.permit_id id) =
        (cleaned.find? (fun r => pyEq r.permit_id id)).toList := by
  have hhash' : ∀ r ∈ cleaned, hashable r.permit_id = true := by
    simpa [List.all_eq_true] using hhash
  refine ⟨dedupFirst [] cleaned, save_to_csv_wrote hne hclean hhash', ?_⟩
  intro id
  simpa using dedupFirst_filter id cleaned [] (by simp) hhash'

/-- C1 witness: two records with the same id 7; the writer keeps exactly the
first. -/
theorem save_to_csv_dedups_first_seen_witness :
    ∃ cleaned,
      [Json.obj [("properties", Json.obj [("id", Json.num 7),
          ("fastighet", Json.str "A")])],
        Json.obj [("properties", Json.obj [("id", Json.num 7),
          ("fastighet", Json.str "B")])]].mapM extract_permit_data =
        .ok cleaned ∧
      cleaned.all (fun r => hashable r.permit_id) = true ∧
      ∃ unique,
        save_to_csv
          [Json.obj [("properties", Json.obj [("id", Json.num 7),
              ("fastighet", Json.str "A")])],
            Json.obj [("properties", Json.obj [("id", Json.num 7),
              ("fastighet", Json.str "B")])]] = .wrote unique ∧
        ∀ id : Json, unique.filter (fun r => pyEq r.permit_id id) =
          (cleaned.find? (fun r => pyEq r.permit_id id)).toList := by
  refine ⟨_, rfl, rfl, ?_⟩
  exact save_to_csv_dedups_first_seen _ _ (by simp) rfl rfl

/-- C2 counterexample: on the empty record list `save_to_csv` returns
normally with no file written; it does not raise or signal any error to
the caller, contradicting the claimed `NoDataError`. -/
theorem save_to_csv_empty_no_error :
    save_to_csv [] = WriteOutcome.noFile ∧
    ∀ e : PyErr, save_to_csv [] ≠ WriteOutcome.raised e := by
  refine ⟨rfl, ?_⟩
  intro e h
  exact absurd h (by simp [save_to_csv])

/-- C2 (amended): when called with an empty record sequence, the writer
writes nothing and creates no output file, returning silently (it only logs
a warning) rather than signalling an error. -/
theorem save_to_csv_empty_returns_silently :
    save_to_csv [] = WriteOutcome.noFile := rfl

/-- C9: the writer's output invariant: the written rows have pairwise
Python-distinct `permit_id` values, a record whose `properties` lacks the
`id` key normalizes to the empty-string `permit_id`, and hence at most one
written row carries the empty-string id. -/
theorem writer_output_ids_pairwise_distinct :
    (∀ (permits : List Json) (cleaned : List NormalizedRecord),
      permits ≠ [] →
      permits.mapM extract_permit_data = .ok cleaned →
      cleaned.all (fun r => hashable r.permit_id) = true →
      ∃ unique, save_to_csv permits = .wrote unique ∧
        unique.Pairwise (fun a b => pyEq a.permit_id b.permit_id = false) ∧
        (unique.filter (fun r => pyEq r.permit_id (.str ""))).length ≤ 1) ∧
    (∀ (permit : Json) (kvs : List (String × Json)) (row : NormalizedRecord),
      pyGet permit "properties" (.obj []) = .ok (.obj kvs) →
      kvs.lookup "id" = none →
      extract_permit_data permit = .ok row →
      row.permit_id = .str "") := by
  constructor
  · intro permits cleaned hne hclean hhash
    have hhash' : ∀ r ∈ cleaned, hashable r.permit_id = true := by
      simpa [List.all_eq_true] using hhash
    refine ⟨dedupFirst [] cleaned, save_to_csv_wrote hne hclean hhash', ?_, ?_⟩
    · exact dedupFirst_pairwise cleaned []
    · have := dedupFirst_filter (.str "") cleaned [] (by simp) hhash'
      simp only [List.any_nil, Bool.false_eq_true, if_false] at this
      rw [this]
      cases cleaned.find? (fun r => pyEq r.permit_id (.str "")) <;> simp
  · intro permit kvs row hp hid h
    rcases extract_fields h with
      ⟨props, geo, coords, lonlat, hp', hg', hc', hl', ht', hid', hla', hlon, hlat⟩
    rw [hp] at hp'
    injection hp' with hprops
    rw [← hprops, pyGet_obj, hid] at hid'
    injection hid' with hpid
    exact hpid.symm

/-- C9 witness: a record without `properties.id` gets the empty-string id,
and a writer run on two id-less records keeps a single row. -/
theorem writer_output_ids_pairwise_distinct_witness :
    (∃ unique,
      save_to_csv [Json.obj [("properties", Json.obj [("fastighet", Json.str "A")])],
          Json.obj [("properties", Json.obj [("fastighet", Json.str "B")])]] =
        .wrote unique ∧
      unique.Pairwise (fun a b => pyEq a.permit_id b.permit_id = false) ∧
      (unique.filter (fun r => pyEq r.permit_id (.str ""))).length ≤ 1) ∧
    ∀ row, extract_permit_data
        (Json.obj [("properties", Json.obj [("fastighet", Json.str "A")])]) =
          .ok row →
      row.permit_id = .str "" := by
  constructor
  · exact writer_output_ids_pairwise_distinct.1 _ _ (by simp) rfl rfl
  · intro row h
    exact writer_output_ids_pairwise_distinct.2
      (Json.obj [("properties", Json.obj [("fastighet", Json.str "A")])])
      [("fastighet", Json.str "A")] row rfl rfl h

/-- Summing the first components of encoded vertex pairs. -/
theorem sumComponent_encoded_fst (vs : List (ℚ × ℚ)) (acc : ℚ) :
    sumComponent 0 acc (vs.map fun v => Json.arr [Json.num v.1, Json.num v.2]) =
      .ok (acc + (vs.map Prod.fst).sum) := by
  induction vs generalizing acc with
  | nil => simp [sumComponent]
  | cons v vs ih =>
    simp [sumComponent, pyIndex, pyNumVal, ok_bind, ih, add_assoc]

/-- Summing the second components of encoded vertex pairs. -/
theorem sumComponent_encoded_snd (vs : List (ℚ × ℚ)) (acc : ℚ) :
    sumComponent 1 acc (vs.map fun v => Json.arr [Json.num v.1, Json.num v.2]) =
      .ok (acc + (vs.map Prod.snd).sum) := by
  induction vs generalizing acc with
  | nil => simp [sumComponent]
  | cons v vs ih =>
    simp [sumComponent, pyIndex, pyNumVal, ok_bind, ih, add_assoc]

/-- The Polygon branch of the geometry handling computes the componentwise
vertex average of the first ring. -/
theorem geomLonLat_polygon (gkvs : List (String × Json)) (rest : List Json)
    (vs : List (ℚ × ℚ))
    (htype : gkvs.lookup "type" = some (.str "Polygon"))
    (hvs : vs ≠ []) :
    geomLonLat (.obj gkvs)
        (.arr (Json.arr (vs.map fun v => Json.arr [Json.num v.1, Json.num v.2])
          :: rest)) =
      .ok (.num ((vs.map Prod.fst).sum / (vs.length : ℚ)),
           .num ((vs.map Prod.snd).sum / (vs.length : ℚ))) := by
  unfold geomLonLat
  simp [pyGet_obj, htype, pyEq, truthy, pyIndex, pySumIdx, pyLen, ok_bind,
    sumComponent_encoded_fst, sumComponent_encoded_snd, hvs]

/-- Evaluation of the `PERMIT_TYPES` lookup on a numeric code. -/
theorem findLabel_num (t : ℚ) :
    findLabel (.num t) =
      if t = 0 then "Bygglov" else if t = 1 then "Rivningslov"
      else if t = 2 then "Marklov" else if t = 3 then "Förhandsbesked"
      else "Unknown" := by
  by_cases h0 : t = 0
  · subst h0; decide
  · by_cases h1 : t = 1
    · subst h1; decide
    · by_cases h2 : t = 2
      · subst h2; decide
      · by_cases h3 : t = 3
        · subst h3; decide
        · have e0 : (t == (0 : ℚ)) = false := beq_eq_false_iff_ne.mpr h0
          have e1 : (t == (1 : ℚ)) = false := beq_eq_false_iff_ne.mpr h1
          have e2 : (t == (2 : ℚ)) = false := beq_eq_false_iff_ne.mpr h2
          have e3 : (t == (3 : ℚ)) = false := beq_eq_false_iff_ne.mpr h3
          simp [findLabel, PERMIT_TYPES, List.find?, pyEq, e0, e1, e2, e3,
            h0, h1, h2, h3]

/-- C3 counterexample: `extract_permit_data` is not total.  On a record
whose geometry is a Polygon whose first ring contains an empty vertex it
raises `IndexError` (from `v[0]` in the centroid sum) instead of returning
a row. -/
theorem extract_raises_on_degenerate_polygon_vertex :
    extract_permit_data badPolygonPermit = .error .indexError ∧
    ∀ row, extract_permit_data badPolygonPermit ≠ .ok row := by
  refine ⟨rfl, ?_⟩
  intro row h
  have h2 : (Except.error PyErr.indexError : Except PyErr NormalizedRecord) =
      .ok row := Eq.trans (by rfl) h
  exact absurd h2 (by simp)

/-- C3 (amended): for records whose `properties` and `geometry` resolve to
objects (present or absent with the `{}` default), whose geometry carries
no recognized type (its `type` value — defaulting to null when the key is
absent — compares equal to neither `'Polygon'` nor `'Point'`; the
`coordinates` value is arbitrary), and whose `typ_num` (if any) is
hashable, normalization succeeds and fills every missing position with its
default: empty string for missing property fields, null
longitude/latitude.  It is not total in general (see the
degenerate-Polygon counterexample). -/
theorem extract_defaults_on_missing_fields
    (permit : Json) (kvs gkvs : List (String × Json))
    (hp : pyGet permit "properties" (.obj []) = .ok (.obj kvs))
    (hg : pyGet permit "geometry" (.obj []) = .ok (.obj gkvs))
    (hgt1 : pyEq ((gkvs.lookup "type").getD .null) (.str "Polygon") = false)
    (hgt2 : pyEq ((gkvs.lookup "type").getD .null) (.str "Point") = false)
    (htyp : ∀ v, kvs.lookup "typ_num" = some v → hashable v = true) :
    extract_permit_data permit = .ok (defaultRowFor kvs) ∧
      (defaultRowFor kvs).longitude = .null ∧
      (defaultRowFor kvs).latitude = .null ∧
      (kvs.lookup "id" = none → (defaultRowFor kvs).permit_id = .str "") ∧
      (kvs.lookup "fastighet" = none →
        (defaultRowFor kvs).property_name = .str "") ∧
      (kvs.lookup "kun_id" = none →
        (defaultRowFor kvs).municipal_case_id = .str "") ∧
      (kvs.lookup "pubdate" = none →
        (defaultRowFor kvs).publication_date = .str "") ∧
      (kvs.lookup "subtext" = none →
        (defaultRowFor kvs).municipality = .str "") ∧
      (kvs.lookup "typ_num" = none →
        (defaultRowFor kvs).permit_type_num = .num (-1) ∧
        (defaultRowFor kvs).permit_type = .str "Unknown") := by
  have htvh : hashable ((kvs.lookup "typ_num").getD (.num (-1))) = true := by
    cases hl : kvs.lookup "typ_num" with
    | none => rfl
    | some v => simpa using htyp v hl
  have hgeom : ∀ coords : Json,
      geomLonLat (.obj gkvs) coords = .ok (.null, .null) := by
    intro coords
    unfold geomLonLat
    simp only [pyGet_obj, ok_bind, hgt1, hgt2, Bool.false_and,
      Bool.false_eq_true, if_false]
    rfl
  have hlabel : permitTypesGet ((kvs.lookup "typ_num").getD (.num (-1))) =
      .ok (.str (findLabel ((kvs.lookup "typ_num").getD (.num (-1))))) := by
    unfold permitTypesGet
    rw [htvh]
    simp
  refine ⟨?_, rfl, rfl, ?_, ?_, ?_, ?_, ?_, ?_⟩
  · unfold extract_permit_data
    simp only [hp, ok_bind, hg, pyGet_obj, hgeom, hlabel]
    rfl
  · intro h; simp [defaultRowFor, h]
  · intro h; simp [defaultRowFor, h]
  · intro h; simp [defaultRowFor, h]
  · intro h; simp [defaultRowFor, h]
  · intro h; simp [defaultRowFor, h]
  · intro h
    refine ⟨by simp [defaultRowFor, h], ?_⟩
    have : findLabel (.num (-1)) = "Unknown" := by
      rw [findLabel_num]
      norm_num
    simp [defaultRowFor, h, this]

/-- C3 amended witness: a record with no properties and an unrecognized
geometry type (`{"type": "Foo", "coordinates": [7]}`) normalizes to the
all-defaults row with null coordinates. -/
theorem extract_defaults_on_missing_fields_witness :
    extract_permit_data (Json.obj [("geometry", Json.obj
        [("type", Json.str "Foo"), ("coordinates", Json.arr [Json.num 7])])]) =
      .ok (defaultRowFor []) ∧
      (defaultRowFor ([] : List (String × Json))).longitude = .null ∧
      (defaultRowFor ([] : List (String × Json))).permit_id = .str "" ∧
      (defaultRowFor ([] : List (String × Json))).permit_type = .str "Unknown" := by
  have h := extract_defaults_on_missing_fields
    (Json.obj [("geometry", Json.obj
      [("type", Json.str "Foo"), ("coordinates", Json.arr [Json.num 7])])])
    [] [("type", Json.str "Foo"), ("coordinates", Json.arr [Json.num 7])]
    rfl rfl (by decide) (by decide) (by intro v hv; simp at hv)
  exact ⟨h.1, h.2.1, h.2.2.2.1 rfl, (h.2.2.2.2.2.2.2.2 rfl).2⟩

/-- C7: whenever the geometry is a Polygon whose first ring is a nonempty
list of coordinate pairs, the normalizer sets longitude/latitude to the
componentwise arithmetic mean of the ring's vertices (not the area
centroid). -/
theorem polygon_centroid_is_vertex_mean
    (permit : Json) (gkvs : List (String × Json)) (rest : List Json)
    (vs : List (ℚ × ℚ)) (row : NormalizedRecord)
    (hg : pyGet permit "geometry" (.obj []) = .ok (.obj gkvs))
    (htype : gkvs.lookup "type" = some (.str "Polygon"))
    (hcoords : gkvs.lookup "coordinates" =
      some (.arr (Json.arr (vs.map fun v => Json.arr [Json.num v.1, Json.num v.2])
        :: rest)))
    (hvs : vs ≠ [])
    (hrow : extract_permit_data permit = .ok row) :
    row.longitude = .num ((vs.map Prod.fst).sum / (vs.length : ℚ)) ∧
    row.latitude = .num ((vs.map Prod.snd).sum / (vs.length : ℚ)) := by
  rcases extract_fields hrow with
    ⟨props, geo, coords, lonlat, hp', hg', hc', hl', ht', hid', hla', hlon, hlat⟩
  rw [hg] at hg'
  injection hg' with hgeo
  subst hgeo
  rw [pyGet_obj, hcoords] at hc'
  simp only [Option.getD_some] at hc'
  injection hc' with hco
  subst hco
  rw [geomLonLat_polygon gkvs rest vs htype hvs] at hl'
  injection hl' with hll
  subst hll
  exact ⟨hlon, hlat⟩

/-- C7 witness: the square `[(0,0), (2,0), (2,2), (0,2)]` normalizes to
`(1, 1)`. -/
theorem polygon_centroid_is_vertex_mean_witness :
    ∃ row, extract_permit_data squarePolygonPermit = .ok row ∧
      row.longitude = .num 1 ∧ row.latitude = .num 1 := by
  refine ⟨_, rfl, ?_⟩
  have h := polygon_centroid_is_vertex_mean squarePolygonPermit
    [("type", .str "Polygon"),
      ("coordinates", .arr [.arr [.arr [.num 0, .num 0], .arr [.num 2, .num 0],
        .arr [.num 2, .num 2], .arr [.num 0, .num 2]]])]
    [] [(0, 0), (2, 0), (2, 2), (0, 2)] _ rfl rfl rfl (by simp) rfl
  constructor
  · rw [h.1]; norm_num
  · rw [h.2]; norm_num

/-- C8: the permit type code is mapped through the fixed `PERMIT_TYPES`
table — 0 to Bygglov, 1 to Rivningslov, 2 to Marklov, 3 to Förhandsbesked,
anything else to Unknown — and a missing `typ_num` defaults to the code -1
and hence the Unknown label. -/
theorem permit_type_fixed_table :
    (∀ (permit : Json) (kvs : List (String × Json)) (row : NormalizedRecord)
      (t : ℚ),
      pyGet permit "properties" (.obj []) = .ok (.obj kvs) →
      kvs.lookup "typ_num" = some (.num t) →
      extract_permit_data permit = .ok row →
      row.permit_type_num = .num t ∧
      row.permit_type = .str (if t = 0 then "Bygglov"
        else if t = 1 then "Rivningslov" else if t = 2 then "Marklov"
        else if t = 3 then "Förhandsbesked" else "Unknown")) ∧
    (∀ (permit : Json) (kvs : List (String × Json)) (row : NormalizedRecord),
      pyGet permit "properties" (.obj []) = .ok (.obj kvs) →
      kvs.lookup "typ_num" = none →
      extract_permit_data permit = .ok row →
      row.permit_type_num = .num (-1) ∧ row.permit_type = .str "Unknown") := by
  constructor
  · intro permit kvs row t hp hl hrow
    rcases extract_fields hrow with
      ⟨props, geo, coords, lonlat, hp', hg', hc', hl', ht', hid', hla', hlon, hlat⟩
    rw [hp] at hp'
    injection hp' with hprops
    subst hprops
    rw [pyGet_obj, hl] at ht'
    simp only [Option.getD_some] at ht'
    injection ht' with htn
    rw [← htn] at hla' ⊢
    have hlab : permitTypesGet (.num t) = .ok (.str (findLabel (.num t))) := rfl
    rw [hlab] at hla'
    injection hla' with hlabel
    rw [← hlabel, findLabel_num]
    exact ⟨rfl, rfl⟩
  · intro permit kvs row hp hl hrow
    rcases extract_fields hrow with
      ⟨props, geo, coords, lonlat, hp', hg', hc', hl', ht', hid', hla', hlon, hlat⟩
    rw [hp] at hp'
    injection hp' with hprops
    subst hprops
    rw [pyGet_obj, hl] at ht'
    simp only [Option.getD_none] at ht'
    injection ht' with htn
    rw [← htn] at hla' ⊢
    have hlab : permitTypesGet (.num (-1)) = .ok (.str (findLabel (.num (-1)))) := rfl
    rw [hlab] at hla'
    injection hla' with hlabel
    rw [← hlabel]
    have : findLabel (.num (-1)) = "Unknown" := by
      rw [findLabel_num]
      norm_num
    rw [this]
    exact ⟨rfl, rfl⟩

/-- C8 witness: code 99 maps to Unknown and a record without `typ_num`
gets code -1 and label Unknown. -/
theorem permit_type_fixed_table_witness :
    (∃ row, extract_permit_data
        (Json.obj [("properties", Json.obj [("typ_num", Json.num 99)])]) =
          .ok row ∧
      row.permit_type_num = .num 99 ∧
      row.permit_type = .str (if (99 : ℚ) = 0 then "Bygglov"
        else if (99 : ℚ) = 1 then "Rivningslov"
        else if (99 : ℚ) = 2 then "Marklov"
        else if (99 : ℚ) = 3 then "Förhandsbesked" else "Unknown")) ∧
    (∃ row, extract_permit_data (Json.obj []) = .ok row ∧
      row.permit_type_num = .num (-1) ∧ row.permit_type = .str "Unknown") := by
  constructor
  · exact ⟨_, rfl, permit_type_fixed_table.1
      (Json.obj [("properties", Json.obj [("typ_num", Json.num 99)])])
      [("typ_num", Json.num 99)] _ 99 rfl rfl rfl⟩
  · exact ⟨_, rfl, permit_type_fixed_table.2 (Json.obj []) [] _ rfl rfl rfl⟩

/-- C5 counterexample: a non-2xx status outside 400-599 (here 304) with a
decodable JSON body is not treated as a failure by `get_locations`
(`raise_for_status` raises only for 4xx/5xx), so the claimed
"empty sequence on every non-2xx status" is false. -/
theorem get_locations_counterexample_304 :
    get_locations (.status 304 (some (Json.obj [("data",
        Json.obj [("features", Json.arr [Json.num 1])])]))) =
      .ok (Json.arr [Json.num 1]) ∧
    Json.arr [Json.num 1] ≠ Json.arr [] := by
  refine ⟨rfl, ?_⟩
  intro h
  simp at h

/-- C5 (amended): for every transport error, every HTTP status in 400-599,
and every response whose body is not decodable JSON, `get_locations`
returns the empty list and `get_permit_details` returns the empty record,
neither raising; a status outside 2xx but also outside 400-599 is not
treated as a failure. -/
theorem http_failures_degrade_to_empty :
    (get_locations .transportError = .ok (.arr []) ∧
      get_permit_details .transportError = .obj []) ∧
    (∀ (code : Nat) (body : Option Json), 400 ≤ code → code < 600 →
      get_locations (.status code body) = .ok (.arr []) ∧
      get_permit_details (.status code body) = .obj []) ∧
    (∀ code : Nat, get_locations (.status code none) = .ok (.arr []) ∧
      get_permit_details (.status code none) = .obj []) := by
  refine ⟨⟨rfl, rfl⟩, ?_, ?_⟩
  · intro code body h1 h2
    have hf : raiseForStatusFails code = true := by
      simp [raiseForStatusFails, h1, h2]
    constructor
    · simp [get_locations, hf]
    · simp [get_permit_details, hf]
  · intro code
    constructor
    · by_cases hf : raiseForStatusFails code = true
      · simp [get_locations, hf]
      · have hf' : raiseForStatusFails code = false := by
          revert hf
          cases raiseForStatusFails code <;> simp
        simp [get_locations, hf']
    · by_cases hf : raiseForStatusFails code = true
      · simp [get_permit_details, hf]
      · have hf' : raiseForStatusFails code = false := by
          revert hf
          cases raiseForStatusFails code <;> simp
        simp [get_permit_details, hf']

/-- C5 witness: a 500 response and an undecodable 200 body both degrade to
empty results. -/
theorem http_failures_degrade_to_empty_witness :
    (get_locations (.status 500 (some (Json.str "oops"))) = .ok (.arr []) ∧
      get_permit_details (.status 500 (some (Json.str "oops"))) = .obj []) ∧
    (get_locations (.status 200 none) = .ok (.arr []) ∧
      get_permit_details (.status 200 none) = .obj []) :=
  ⟨http_failures_degrade_to_empty.2.1 500 (some (Json.str "oops"))
      (by norm_num) (by norm_num),
    http_failures_degrade_to_empty.2.2 200⟩

/-- C10: the detail loop of `scrape_bounding_box` skips every marker whose
`properties.id` is absent or falsy (None, 0, empty string): the detail
fetcher is never consulted on falsy ids (the loop result only depends on
the oracle at truthy ids), and a falsy-id marker contributes nothing to
the result. -/
theorem scrape_bounding_box_skips_falsy_ids :
    (∀ f g : Json → Json, (∀ id, truthy id = true → f id = g id) →
      ∀ locs : List Json, detailLoop f locs = detailLoop g locs) ∧
    (∀ (f : Json → Json) (loc : Json) (rest : List Json) (props pid : Json),
      pyGet loc "properties" (.obj []) = .ok props →
      pyGet props "id" .null = .ok pid →
      truthy pid = false →
      detailLoop f (loc :: rest) = detailLoop f rest ∧
      scrape_bounding_box f (.arr (loc :: rest)) true =
        Except.map Json.arr (detailLoop f rest)) := by
  have hloop : ∀ f g : Json → Json, (∀ id, truthy id = true → f id = g id) →
      ∀ locs : List Json, detailLoop f locs = detailLoop g locs := by
    intro f g hfg locs
    induction locs with
    | nil => rfl
    | cons loc rest ih =>
      unfold detailLoop
      cases hp : pyGet loc "properties" (.obj []) with
      | error e => rfl
      | ok props =>
        simp only [ok_bind]
        cases hq : pyGet props "id" .null with
        | error e => rfl
        | ok pid =>
          simp only [ok_bind]
          by_cases ht : truthy pid = false
          · rw [ht]
            simpa using ih
          · have ht' : truthy pid = true := by
              revert ht
              cases truthy pid <;> simp
            rw [ht']
            simp only [Bool.true_eq_false, if_false, hfg pid ht', ih]
  refine ⟨hloop, ?_⟩
  intro f loc rest props pid hp hq ht
  have hskip : detailLoop f (loc :: rest) = detailLoop f rest := by
    conv_lhs => rw [detailLoop]
    rw [hp, ok_bind, hq, ok_bind, ht]
    simp
  refine ⟨hskip, ?_⟩
  unfold scrape_bounding_box
  have htr : truthy (Json.arr (loc :: rest)) = true := by
    simp [truthy]
  rw [htr]
  simp only [Bool.true_eq_false, if_false, hskip]
  cases hd : detailLoop f rest with
  | error e => simp [Except.map, hd]
  | ok tail => simp [Except.map, hd, ok_bind]

/-- C10 witness: a marker whose id is the integer 0 is skipped and its
(nonempty) details never reach the output. -/
theorem scrape_bounding_box_skips_falsy_ids_witness :
    detailLoop (fun _ => Json.obj [("x", Json.num 1)])
        [Json.obj [("properties", Json.obj [("id", Json.num 0)])]] =
      detailLoop (fun _ => Json.obj [("x", Json.num 1)]) [] ∧
    scrape_bounding_box (fun _ => Json.obj [("x", Json.num 1)])
        (.arr [Json.obj [("properties", Json.obj [("id", Json.num 0)])]]) true =
      Except.map Json.arr
        (detailLoop (fun _ => Json.obj [("x", Json.num 1)]) []) :=
  scrape_bounding_box_skips_falsy_ids.2 (fun _ => Json.obj [("x", Json.num 1)])
    (Json.obj [("properties", Json.obj [("id", Json.num 0)])]) []
    (Json.obj [("id", Json.num 0)]) (Json.num 0) rfl rfl rfl

/-- Every cell the one-dimensional grid loop emits is a nonempty interval
inside the requested range. -/
theorem gridCells1D_mem :
    ∀ (lo hi step : ℚ), ∀ c ∈ gridCells1D lo hi step,
      lo ≤ c.1 ∧ c.1 < c.2 ∧ c.2 ≤ hi := by
  intro lo hi step
  induction lo, hi, step using gridCells1D.induct with
  | case1 lo hi step h ih =>
    rw [gridCells1D, dif_pos h]
    intro c hc
    rcases List.mem_cons.mp hc with rfl | hc
    · exact ⟨le_refl _, lt_min (by linarith [h.1]) h.2, min_le_right _ _⟩
    · have hr := ih c hc
      exact ⟨by linarith [h.1, hr.1], hr.2.1, hr.2.2⟩
  | case2 lo hi step h =>
    rw [gridCells1D, dif_neg h]
    intro c hc
    simp at hc

/-- Every point of the requested range lies in some cell the
one-dimensional grid loop emits. -/
theorem gridCells1D_covers :
    ∀ (lo hi step : ℚ), ∀ x : ℚ, 0 < step → lo ≤ x → x ≤ hi → lo < hi →
      ∃ c ∈ gridCells1D lo hi step, c.1 ≤ x ∧ x ≤ c.2 := by
  intro lo hi step
  induction lo, hi, step using gridCells1D.induct with
  | case1 lo hi step h ih =>
    intro x hstep hlox hxhi hlohi
    by_cases hx : x ≤ min (lo + step) hi
    · refine ⟨(lo, min (lo + step) hi), ?_, hlox, hx⟩
      rw [gridCells1D, dif_pos h]
      exact List.mem_cons_self _ _
    · push_neg at hx
      have hmin : min (lo + step) hi = lo + step := by
        rcases min_choice (lo + step) hi with he | he
        · exact he
        · exfalso
          rw [he] at hx
          linarith
      rw [hmin] at hx
      have h2 : lo + step < hi := lt_of_lt_of_le hx hxhi
      rcases ih x hstep (le_of_lt hx) hxhi h2 with ⟨c, hc, hcx⟩
      refine ⟨c, ?_, hcx⟩
      rw [gridCells1D, dif_pos h]
      exact List.mem_cons_of_mem _ hc
  | case2 lo hi step h =>
    intro x hstep hlox hxhi hlohi
    exact absurd ⟨hstep, hlohi⟩ h

/-- C4: for every bounding box with `lat_min < lat_max`, `lon_min < lon_max`
and every positive cell size, the grid loop of `scrape_sweden` /
`scrape_stockholm_complete` covers the box exactly: every point of the box
lies in some generated cell, and every generated cell is a nonempty
sub-box of the original box (edge cells clipped by `min`). -/
theorem gridCells_covers_bbox (lat_min lat_max lon_min lon_max step : ℚ)
    (hla : lat_min < lat_max) (hlo : lon_min < lon_max) (hstep : 0 < step) :
    (∀ p q : ℚ, lat_min ≤ p → p ≤ lat_max → lon_min ≤ q → q ≤ lon_max →
      ∃ c ∈ gridCells lat_min lat_max lon_min lon_max step,
        c.1 ≤ p ∧ p ≤ c.2.1 ∧ c.2.2.1 ≤ q ∧ q ≤ c.2.2.2) ∧
    (∀ c ∈ gridCells lat_min lat_max lon_min lon_max step,
      lat_min ≤ c.1 ∧ c.1 < c.2.1 ∧ c.2.1 ≤ lat_max ∧
      lon_min ≤ c.2.2.1 ∧ c.2.2.1 < c.2.2.2 ∧ c.2.2.2 ≤ lon_max) := by
  constructor
  · intro p q hp1 hp2 hq1 hq2
    rcases gridCells1D_covers lat_min lat_max step p hstep hp1 hp2 hla with
      ⟨cl, hcl, hclp⟩
    rcases gridCells1D_covers lon_min lon_max step q hstep hq1 hq2 hlo with
      ⟨co, hco, hcoq⟩
    refine ⟨(cl.1, cl.2, co.1, co.2), ?_, hclp.1, hclp.2, hcoq.1, hcoq.2⟩
    unfold gridCells
    simp only [List.mem_flatMap, List.mem_map]
    exact ⟨cl, hcl, co, hco, rfl⟩
  · intro c hc
    unfold gridCells at hc
    simp only [List.mem_flatMap, List.mem_map] at hc
    rcases hc with ⟨cl, hcl, co, hco, rfl⟩
    have h1 := gridCells1D_mem lat_min lat_max step cl hcl
    have h2 := gridCells1D_mem lon_min lon_max step co hco
    exact ⟨h1.1, h1.2.1, h1.2.2, h2.1, h2.2.1, h2.2.2⟩

/-- C4 witness: the Stockholm box of `scrape_stockholm_complete` with the
0.1-degree grid. -/
theorem gridCells_covers_bbox_witness :
    (296 / 5 : ℚ) < 119 / 2 ∧ (89 / 5 : ℚ) < 91 / 5 ∧ (0 : ℚ) < 1 / 10 ∧
    ((∀ p q : ℚ, 296 / 5 ≤ p → p ≤ 119 / 2 → 89 / 5 ≤ q → q ≤ 91 / 5 →
      ∃ c ∈ gridCells (296 / 5) (119 / 2) (89 / 5) (91 / 5) (1 / 10),
        c.1 ≤ p ∧ p ≤ c.2.1 ∧ c.2.2.1 ≤ q ∧ q ≤ c.2.2.2) ∧
    (∀ c ∈ gridCells (296 / 5) (119 / 2) (89 / 5) (91 / 5) (1 / 10),
      296 / 5 ≤ c.1 ∧ c.1 < c.2.1 ∧ c.2.1 ≤ 119 / 2 ∧
      89 / 5 ≤ c.2.2.1 ∧ c.2.2.1 < c.2.2.2 ∧ c.2.2.2 ≤ 91 / 5)) :=
  ⟨by norm_num, by norm_num, by norm_num,
    gridCells_covers_bbox (296 / 5) (119 / 2) (89 / 5) (91 / 5) (1 / 10)
      (by norm_num) (by norm_num) (by norm_num)⟩

/-- The time at which `_rate_limit_wait` lets the caller proceed: the later
of "now" and "one interval after the previous request started". -/
theorem rate_limit_wait_start (now : ℚ) (l : Limiter) :
    (rate_limit_wait now l).1 =
      max now (l.last_request_time + l.rate_limit) := by
  simp only [rate_limit_wait]
  split_ifs with h
  · rw [max_eq_right (by linarith)]
    ring
  · rw [max_eq_left (by linarith)]

/-- Head of the sequence of call start times. -/
theorem callStartsAux_head (l : Limiter) (now d : ℚ) (ds : List ℚ) :
    (callStartsAux l now (d :: ds)).head? =
      some (max now (l.last_request_time + l.rate_limit)) := by
  simp [callStartsAux, rate_limit_wait_start]

/-- Consecutive call start times are at least one interval apart. -/
theorem callStartsAux_chain (rl : ℚ) :
    ∀ (ds : List ℚ) (l : Limiter) (now : ℚ), l.rate_limit = rl →
      List.Chain' (fun a b => a + rl ≤ b) (callStartsAux l now ds)
  | [], _, _, _ => by simp [callStartsAux]
  | [d], l, now, hrl => by simp [callStartsAux]
  | d :: d2 :: ds2, l, now, hrl => by
    rw [callStartsAux, List.chain'_cons']
    constructor
    · intro b hb
      rw [callStartsAux_head] at hb
      simp only [Option.mem_def, Option.some.injEq] at hb
      have h2 : ((rate_limit_wait now l).2).last_request_time =
          (rate_limit_wait now l).1 := rfl
      have h3 : ((rate_limit_wait now l).2).rate_limit = rl := hrl
      rw [← hb, h2, h3]
      exact le_max_right _ _
    · exact callStartsAux_chain rl (d2 :: ds2) (rate_limit_wait now l).2
        ((rate_limit_wait now l).1 + d) hrl

/-- There are as many start times as calls. -/
theorem callStartsAux_length :
    ∀ (ds : List ℚ) (l : Limiter) (now : ℚ),
      (callStartsAux l now ds).length = ds.length
  | [], _, _ => rfl
  | _ :: ds, l, now => by
    simp [callStartsAux, callStartsAux_length ds]

/-- A chain with gaps of at least `rl` grows by at least `rl` per step. -/
theorem chain_getLast_bound (rl : ℚ) :
    ∀ (xs : List ℚ) (a y : ℚ),
      List.Chain' (fun u v => u + rl ≤ v) (a :: xs) →
      (a :: xs).getLast? = some y → a + (xs.length : ℚ) * rl ≤ y
  | [], a, y, _, h => by
    simp only [List.getLast?_singleton, Option.some.injEq] at h
    simp [← h]
  | b :: xs, a, y, hch, h => by
    rw [List.getLast?_cons_cons] at h
    rcases List.chain'_cons.mp hch with ⟨hab, htail⟩
    have hrec := chain_getLast_bound rl xs b y htail h
    have hlen : ((b :: xs).length : ℚ) = (xs.length : ℚ) + 1 := by
      push_cast [List.length_cons]
      ring
    rw [hlen]
    linarith

/-- C6: start times of calls issued through `_rate_limit_wait` on a fresh
scraper: consecutive calls begin at least `rate_limit` seconds apart, the
first call (at wall time `t0 ≥ rate_limit`, with `last_request_time`
initialized to 0) incurs no wait, and the last of N calls starts at least
(N-1) intervals after the first. -/
theorem rate_limiter_min_spacing (rl t0 : ℚ) (ds : List ℚ)
    (hfirst : rl ≤ t0) :
    (ds ≠ [] → (callStarts rl t0 ds).head? = some t0) ∧
    List.Chain' (fun a b => a + rl ≤ b) (callStarts rl t0 ds) ∧
    (∀ y, (callStarts rl t0 ds).getLast? = some y →
      t0 + ((ds.length : ℚ) - 1) * rl ≤ y) := by
  have hmax : max t0 ((0 : ℚ) + rl) = t0 := by
    rw [zero_add]
    exact max_eq_left hfirst
  refine ⟨?_, ?_, ?_⟩
  · intro hne
    rcases ds with _ | ⟨d, ds2⟩
    · exact absurd rfl hne
    · rw [callStarts, callStartsAux_head]
      simpa using hmax
  · exact callStartsAux_chain rl ds { rate_limit := rl, last_request_time := 0 }
      t0 rfl
  · intro y hy
    rcases ds with _ | ⟨d, ds2⟩
    · simp [callStarts, callStartsAux] at hy
    · have hs1 : (rate_limit_wait t0
          { rate_limit := rl, last_request_time := 0 }).1 = t0 := by
        rw [rate_limit_wait_start]
        simpa using hmax
      have hxs : callStarts rl t0 (d :: ds2) =
          t0 :: callStartsAux
            (rate_limit_wait t0 { rate_limit := rl, last_request_time := 0 }).2
            (t0 + d) ds2 := by
        rw [callStarts, callStartsAux, hs1]
      have hch := callStartsAux_chain rl (d :: ds2)
        { rate_limit := rl, last_request_time := 0 } t0 rfl
      rw [show callStartsAux { rate_limit := rl, last_request_time := 0 } t0
          (d :: ds2) = callStarts rl t0 (d :: ds2) from rfl, hxs] at hch
      rw [hxs] at hy
      have hb := chain_getLast_bound rl _ t0 y hch hy
      have hlen : ((callStartsAux
          (rate_limit_wait t0 { rate_limit := rl, last_request_time := 0 }).2
          (t0 + d) ds2).length : ℚ) = (ds2.length : ℚ) := by
        rw [callStartsAux_length]
      rw [hlen] at hb
      have hlen2 : (((d :: ds2).length : ℕ) : ℚ) - 1 = (ds2.length : ℚ) := by
        push_cast [List.length_cons]
        ring

      rw [hlen2]
      exact hb

/-- C6 witness: three calls at interval 1 starting at wall time 1000. -/
theorem rate_limiter_min_spacing_witness :
    (1 : ℚ) ≤ 1000 ∧
    ((([0, 5, 0] : List ℚ) ≠ [] →
      (callStarts 1 1000 [0, 5, 0]).head? = some 1000) ∧
    List.Chain' (fun a b => a + 1 ≤ b) (callStarts 1 1000 [0, 5, 0]) ∧
    (∀ y, (callStarts 1 1000 [0, 5, 0]).getLast? = some y →
      1000 + ((([0, 5, 0] : List ℚ).length : ℚ) - 1) * 1 ≤ y)) :=
  ⟨by norm_num, rate_limiter_min_spacing 1 1000 [0, 5, 0] (by norm_num)⟩
